import Mathlib

/-!
Shallow embedding of the PySpark ETL job in `etl.py`.

Tables (Spark DataFrames) are modelled as Lean lists of rows; nullable
columns (Spark JSON schema inference makes every column nullable) are
modelled as `Option` fields.  Spark's `distinct()` removes exact duplicate
rows (with SQL `DISTINCT` treating two nulls as equal, which matches
`Option` equality), and is modelled by `List.dedup`.  Floating-point
`duration` / `length` / coordinates are modelled as exact rationals: no
claim depends on rounding of these fields, only on equality of values that
appear verbatim in both inputs.

The calendar-field extractors (`hour`, `dayofmonth`, `weekofyear`, `month`,
`year`, `dayofweek`) are functions of the external engine applied to the
derived timestamp; the transform is parameterized over them
(`cal : ℚ → TimeFields`).  Window functions with engine-chosen tie order
(`ROW_NUMBER`) are modelled by quantifying over an admissible choice of
rank-1 row per partition (`IsMaxTsChoice`).
-/

namespace Etl

/-- One catalog (song) JSON record, `etl.py` reads these under
`song_data/*/*/*/*.json`.  Every field is nullable after schema inference. -/
structure SongRecord where
  song_id : Option String
  title : Option String
  artist_id : Option String
  year : Option Int
  duration : Option ℚ
  artist_name : Option String
  artist_location : Option String
  artist_latitude : Option ℚ
  artist_longitude : Option ℚ
deriving DecidableEq, Repr

/-- One event-log JSON record, read under `log_data/*/*/*.json`. -/
structure LogRecord where
  ts : Int
  userId : Option String
  firstName : Option String
  lastName : Option String
  gender : Option String
  level : Option String
  page : Option String
  song : Option String
  length : Option ℚ
  sessionId : Option Int
  location : Option String
  userAgent : Option String
deriving DecidableEq, Repr

/-- A row of the Track (songs) table:
`df.select(["song_id", "title", "artist_id", "year", "duration"])`. -/
structure SongRow where
  song_id : Option String
  title : Option String
  artist_id : Option String
  year : Option Int
  duration : Option ℚ
deriving DecidableEq, Repr

/-- Projection of a catalog record onto the songs-table columns
(`etl.py` line 45). -/
def toSongRow (r : SongRecord) : SongRow :=
  ⟨r.song_id, r.title, r.artist_id, r.year, r.duration⟩

/-- The raw (pre-`distinct`) projection of the catalog input onto the
songs-table columns. -/
def songsRawProjection (df : List SongRecord) : List SongRow :=
  df.map toSongRow

/-- `songs_table = df.select([...]).distinct()` (`etl.py` lines 45-46). -/
def songs_table (df : List SongRecord) : List SongRow :=
  (songsRawProjection df).dedup

/-- `songs_table.createOrReplaceTempView("songs")` (`etl.py` line 70): the
view registered for `process_log_data` is the very `songs_table` value that
was written to storage. -/
def songs_view (df : List SongRecord) : List SongRow :=
  songs_table df

/-- Spec-side definition for the refinement claim about the `songs` view:
the spec says the view "must reflect the exact same dedup applied before
writing", i.e. the deduplicated projection of the catalog input. -/
def track_view_spec (df : List SongRecord) : List SongRow :=
  (df.map toSongRow).dedup

/-- A row of the Artist table after the four `withColumnRenamed` calls
(values are untouched by renaming; the first column keeps the source name
`artist_id`, see `artists_table_columns`). -/
structure ArtistRow where
  artist_id : Option String
  name : Option String
  location : Option String
  latitude : Option ℚ
  longitude : Option ℚ
deriving DecidableEq, Repr

/-- `artists_table = df.select([...]).distinct()` followed by the renames
(`etl.py` lines 54-62); renaming does not change row values. -/
def artists_table (df : List SongRecord) : List ArtistRow :=
  (df.map fun r =>
    (⟨r.artist_id, r.artist_name, r.artist_location,
      r.artist_latitude, r.artist_longitude⟩ : ArtistRow)).dedup

/-- Column names of the artists projection before renaming
(`etl.py` lines 54-55). -/
def artistsProjectionColumns : List String :=
  ["artist_id", "artist_name", "artist_location",
   "artist_latitude", "artist_longitude"]

/-- `DataFrame.withColumnRenamed(old, new)` acting on the schema's column
names: renames `old` to `new` where present, leaves other columns alone. -/
def withColumnRenamed (cols : List String) (oldName newName : String) :
    List String :=
  cols.map fun c => if c = oldName then newName else c

/-- Column names of the artists table after the four renames
(`etl.py` lines 59-62).  `artist_id` is never renamed. -/
def artists_table_columns : List String :=
  withColumnRenamed
    (withColumnRenamed
      (withColumnRenamed
        (withColumnRenamed artistsProjectionColumns "artist_name" "name")
        "artist_location" "location")
      "artist_latitude" "latitude")
    "artist_longitude" "longitude"

/-- `song_data = input_data + "/song_data/*/*/*/*.json"` (`etl.py` line 39). -/
def song_data_glob : String := "/song_data/*/*/*/*.json"

/-- `log_data = input_data + "log_data/*/*/*.json"` (`etl.py` line 81). -/
def log_data_glob : String := "log_data/*/*/*.json"

/-- `etl.py` line 39. -/
def song_data_path (input_data : String) : String :=
  input_data ++ song_data_glob

/-- `etl.py` line 81. -/
def log_data_path (input_data : String) : String :=
  input_data ++ log_data_glob

/-- Split a character list at every `/`, yielding the path components. -/
def splitSlash : List Char → List (List Char)
  | [] => [[]]
  | c :: cs =>
    if c = '/' then [] :: splitSlash cs
    else
      match splitSlash cs with
      | [] => [[c]]
      | x :: xs => (c :: x) :: xs

/-- Number of directory-glob levels of a path pattern: path components
(split on `/`) that are exactly the wildcard `*`.  The trailing `*.json`
file component is not a directory level. -/
def wildcardDirDepth (pattern : String) : Nat :=
  ((splitSlash pattern.data).filter (fun comp => comp = ['*'])).length

/-- `df = df.filter("page='NextSong'")` (`etl.py` line 87).  Under SQL
three-valued logic a null `page` compares to `'NextSong'` as unknown and
the row is dropped, which matches `Option` equality with `some`. -/
def filterNextSong (df : List LogRecord) : List LogRecord :=
  df.filter fun r => r.page = some "NextSong"

/-- A row of the User table (`etl.py` lines 95-115). -/
structure UserRow where
  user_id : Option String
  first_name : Option String
  last_name : Option String
  gender : Option String
  level : Option String
deriving DecidableEq, Repr

/-- Projection of an event onto the User-table columns (the `SELECT
DISTINCT userId as user_id, ...` of the users query). -/
def projUser (r : LogRecord) : UserRow :=
  ⟨r.userId, r.firstName, r.lastName, r.gender, r.level⟩

/-- The distinct `userId` values of the (filtered) event set: the window
`PARTITION BY userId` creates one partition per such value, with all null
`userId` rows in a single partition (SQL window partitioning groups nulls
together, matching `Option` equality). -/
def userKeys (df : List LogRecord) : List (Option String) :=
  (df.map fun r => r.userId).dedup

/-- The partition of the event set belonging to one `userId` value. -/
def partitionOf (df : List LogRecord) (u : Option String) : List LogRecord :=
  df.filter fun r => r.userId = u

/-- Admissibility of an engine-chosen rank-1 row per partition for
`ROW_NUMBER() OVER (PARTITION BY userId ORDER BY ts DESC)`: the chosen row
lies in its partition and has maximal `ts` there (ties are broken by the
engine arbitrarily, so any maximal row may be chosen). -/
def IsMaxTsChoice (df : List LogRecord) (pick : Option String → LogRecord) :
    Prop :=
  ∀ u ∈ userKeys df, pick u ∈ partitionOf df u ∧
    ∀ r ∈ partitionOf df u, r.ts ≤ (pick u).ts

/-- The users query (`etl.py` lines 95-115): keep the rank-1 row of each
`userId` partition, project, and `SELECT DISTINCT` the result. -/
def users_table (df : List LogRecord) (pick : Option String → LogRecord) :
    List UserRow :=
  ((userKeys df).map fun u => projUser (pick u)).dedup

/-- `get_timestamp = udf(lambda ts: datetime.fromtimestamp(ts / 1000.0),
TimestampType())` (`etl.py` line 122).  Python `/` is true division, so the
derived timestamp is exactly `ts / 1000` seconds since the epoch, keeping
the millisecond fraction (`datetime.fromtimestamp` stores it as
microseconds; every value `ts/1000` with `ts` in whole milliseconds is
representable there, so the rational is the exact value). -/
def get_timestamp (ts : Int) : ℚ :=
  (ts : ℚ) / 1000

/-- Results of the engine's calendar-field extractors (`hour`,
`dayofmonth`, `weekofyear`, `month`, `year`, `dayofweek`) on one
timestamp.  These are external-engine functions of the timestamp and the
host timezone; the transform is parameterized over them. -/
structure TimeFields where
  hour : Int
  day : Int
  week : Int
  month : Int
  year : Int
  weekday : Int
deriving DecidableEq, Repr

/-- A row of the Time table (`etl.py` lines 138-140). -/
structure TimeRow where
  start_time : ℚ
  hour : Int
  day : Int
  week : Int
  month : Int
  year : Int
  weekday : Int
deriving DecidableEq, Repr

/-- `time_table = df.select([...]).distinct()` over the filtered, enriched
events (`etl.py` lines 128-140): `date_time` is the same
`get_timestamp('ts')` column as `start_time`, and the six calendar columns
are the engine's extractors applied to it. -/
def time_table (df : List LogRecord) (cal : ℚ → TimeFields) : List TimeRow :=
  (df.map fun r =>
    let t := get_timestamp r.ts
    (⟨t, (cal t).hour, (cal t).day, (cal t).week,
      (cal t).month, (cal t).year, (cal t).weekday⟩ : TimeRow)).dedup

/-- A row of the `stage_songplay` view (`etl.py` lines 150-153). -/
structure StageRow where
  start_time : ℚ
  song : Option String
  page : Option String
  userId : Option String
  level : Option String
  sessionId : Option Int
  location : Option String
  userAgent : Option String
  month : Int
  year : Int
  length : Option ℚ
deriving DecidableEq, Repr

/-- Build one `stage_songplay` row from a filtered event (`etl.py`
lines 123, 128-134, 150-153). -/
def toStage (cal : ℚ → TimeFields) (r : LogRecord) : StageRow :=
  let t := get_timestamp r.ts
  ⟨t, r.song, r.page, r.userId, r.level, r.sessionId, r.location,
   r.userAgent, (cal t).month, (cal t).year, r.length⟩

/-- SQL equality of two nullable values as used in the join predicate
`ss.song = s.title`: null compared to anything is unknown, hence no match. -/
def sqlEqB {α : Type} [DecidableEq α] : Option α → Option α → Bool
  | some a, some b => a = b
  | _, _ => false

/-- The join predicate of the songplays query (`etl.py` lines 171-172):
`ss.song = s.title AND ss.length = s.duration`. -/
def trackMatch (e : StageRow) (s : SongRow) : Bool :=
  sqlEqB e.song s.title && sqlEqB e.length s.duration

/-- A row of the Fact (songplays) table (`etl.py` lines 156-175).  The
`songplay_id` column, `ROW_NUMBER() OVER (ORDER BY start_time DESC)`,
assigns `1..n` in an engine-chosen order consistent with `start_time`
descending; it neither adds nor removes rows and no claim depends on its
values, so rows are modelled without it. -/
structure FactRow where
  start_time : ℚ
  user_id : Option String
  level : Option String
  song_id : Option String
  artist_id : Option String
  session_id : Option Int
  location : Option String
  user_agent : Option String
  year : Int
  month : Int
deriving DecidableEq, Repr

/-- The Fact rows produced from one stage row by the
`LEFT JOIN songs s ON ss.song = s.title AND ss.length = s.duration`:
one output row per matching `songs` row, or a single row with null
`song_id`/`artist_id` when no row matches. -/
def factRowsOf (songs : List SongRow) (e : StageRow) : List FactRow :=
  let ms := songs.filter fun s => trackMatch e s
  if ms.isEmpty then
    [⟨e.start_time, e.userId, e.level, none, none, e.sessionId,
      e.location, e.userAgent, e.year, e.month⟩]
  else
    ms.map fun s =>
      ⟨e.start_time, e.userId, e.level, s.song_id, s.artist_id,
       e.sessionId, e.location, e.userAgent, e.year, e.month⟩

/-- The songplays query (`etl.py` lines 156-175) over the filtered event
set and the registered `songs` view. -/
def songplays_table (df : List LogRecord) (songs : List SongRow)
    (cal : ℚ → TimeFields) : List FactRow :=
  ((df.map (toStage cal)).map (factRowsOf songs)).flatten

/-- The full `process_log_data` Fact-table path: read events, filter to
`page='NextSong'`, enrich, and left-join against the `songs` view
registered by `process_song_data`. -/
def songplays_pipeline (songRecs : List SongRecord) (logs : List LogRecord)
    (cal : ℚ → TimeFields) : List FactRow :=
  songplays_table (filterNextSong logs) (songs_view songRecs) cal

/-- The full `process_log_data` User-table path. -/
def users_pipeline (logs : List LogRecord)
    (pick : Option String → LogRecord) : List UserRow :=
  users_table (filterNextSong logs) pick

/-- The full `process_log_data` Time-table path. -/
def time_pipeline (logs : List LogRecord) (cal : ℚ → TimeFields) :
    List TimeRow :=
  time_table (filterNextSong logs) cal

/-- A fixed instantiation of the engine's calendar extractors, used to
evaluate the pipeline on concrete inputs where the calendar columns are
irrelevant to the property at hand. -/
def calZero : ℚ → TimeFields := fun _ => ⟨0, 0, 0, 0, 0, 0⟩

/-! Concrete records used to evaluate the transforms on small inputs. -/

/-- The single catalog record of the spec's end-to-end scenario. -/
def songRec1 : SongRecord :=
  ⟨some "S1", some "Test", some "A1", some 2000, some 200,
   some "Artist1", some "NYC", some 1, some 2⟩

/-- The single play event of the spec's end-to-end scenario. -/
def logRec1 : LogRecord :=
  ⟨1000000000000, some "U1", some "Jo", some "Do", some "F", some "free",
   some "NextSong", some "Test", some 200, some 1, some "NYC", some "UA"⟩

/-- A catalog record with title `"T"` and duration `100`. -/
def songRecA : SongRecord :=
  ⟨some "S1", some "T", some "A1", some 2000, some 100,
   some "N1", some "L1", some 1, some 2⟩

/-- A second catalog record sharing (title, duration) with `songRecA` but
with a different `song_id` and `artist_id`: both survive `distinct()`. -/
def songRecB : SongRecord :=
  ⟨some "S2", some "T", some "A2", some 2001, some 100,
   some "N2", some "L2", some 3, some 4⟩

/-- A play event whose (song, length) matches both `songRecA` and
`songRecB`. -/
def logRecT : LogRecord :=
  ⟨1500000000000, some "U2", some "Ann", some "Lee", some "F", some "paid",
   some "NextSong", some "T", some 100, some 7, some "SF", some "UA2"⟩

/-- An event that is not a play event (`page = "Home"`). -/
def logRecHome : LogRecord :=
  ⟨1200000000000, some "U3", some "Bo", some "Kim", some "M", some "free",
   some "Home", none, none, some 9, some "LA", some "UA3"⟩

/-- A play event whose `userId` is null. -/
def logRecNull : LogRecord :=
  ⟨1300000000000, none, some "An", some "On", some "F", some "free",
   some "NextSong", some "X", some 50, some 11, some "DC", some "UA4"⟩

/-! Helper lemmas about the users-table window choice. -/

/-- A row chosen by an admissible `ROW_NUMBER` choice lies in the filtered
event set and carries its partition's `userId` value. -/
theorem pick_userId_eq (df : List LogRecord)
    (pick : Option String → LogRecord) (h : IsMaxTsChoice df pick)
    (u : Option String) (hu : u ∈ userKeys df) :
    pick u ∈ df ∧ (pick u).userId = u := by
  obtain ⟨hmem, _⟩ := h u hu
  have h2 := List.mem_filter.mp hmem
  exact ⟨h2.1, by simpa using h2.2⟩

/-- Under an admissible choice the post-window `DISTINCT` is a no-op: the
rank-1 rows of distinct partitions project to rows with distinct
`user_id`s. -/
theorem users_table_eq_map (df : List LogRecord)
    (pick : Option String → LogRecord) (h : IsMaxTsChoice df pick) :
    users_table df pick = (userKeys df).map fun u => projUser (pick u) := by
  apply List.dedup_eq_self.mpr
  refine List.Nodup.map_on ?_ (List.nodup_dedup _)
  intro x hx y hy hxy
  have hx' := (pick_userId_eq df pick h x hx).2
  have hy' := (pick_userId_eq df pick h y hy).2
  have : (projUser (pick x)).user_id = (projUser (pick y)).user_id := by
    rw [hxy]
  simpa [projUser, hx', hy'] using this

/-- Counting occurrences of a value in a duplicate-free list. -/
theorem countP_eq_ite_of_nodup {α : Type} [DecidableEq α] :
    ∀ (l : List α), l.Nodup → ∀ u : α,
      l.countP (fun k => k = u) = if u ∈ l then 1 else 0
  | [], _, u => by simp
  | a :: l, h, u => by
    rcases List.nodup_cons.mp h with ⟨ha, hl⟩
    by_cases hau : u = a
    · subst hau
      simp [List.countP_cons, countP_eq_ite_of_nodup l hl u, ha]
    · simp [List.countP_cons, countP_eq_ite_of_nodup l hl u,
        List.mem_cons, hau, Ne.symm hau]

/-- The users table has exactly one row per distinct `userId` of the
filtered event set (and none for any other value). -/
theorem users_table_countP (df : List LogRecord)
    (pick : Option String → LogRecord) (h : IsMaxTsChoice df pick)
    (u : Option String) :
    (users_table df pick).countP (fun row => row.user_id = u) =
      if u ∈ userKeys df then 1 else 0 := by
  rw [users_table_eq_map df pick h, List.countP_map]
  rw [List.countP_congr (q := fun k => k = u) ?_]
  · have hc := countP_eq_ite_of_nodup (userKeys df) (List.nodup_dedup _) u
    by_cases hmem : u ∈ userKeys df
    · rw [if_pos hmem]
      rwa [if_pos hmem] at hc
    · rw [if_neg hmem]
      rwa [if_neg hmem] at hc
  · intro x hx
    have hx' := (pick_userId_eq df pick h x hx).2
    simp [Function.comp, projUser, hx']

/-- Every users-table row is the projection of a maximal-timestamp event of
its user. -/
theorem users_table_rows (df : List LogRecord)
    (pick : Option String → LogRecord) (h : IsMaxTsChoice df pick) :
    ∀ row ∈ users_table df pick,
      ∃ r ∈ df, r.userId = row.user_id ∧
        (∀ q ∈ df, q.userId = row.user_id → q.ts ≤ r.ts) ∧
        row = projUser r := by
  intro row hrow
  rw [users_table_eq_map df pick h] at hrow
  obtain ⟨u, hu, hrow⟩ := List.mem_map.mp hrow
  obtain ⟨hmem, hmax⟩ := h u hu
  obtain ⟨hdf, huid⟩ := pick_userId_eq df pick h u hu
  refine ⟨pick u, hdf, ?_, ?_, hrow.symm⟩
  · rw [← hrow]
    simp [projUser]
  · intro q hq hquid
    have : q ∈ partitionOf df u := by
      apply List.mem_filter.mpr
      refine ⟨hq, ?_⟩
      simp [hquid, ← hrow, projUser, huid]
    exact hmax q this

/-! Helper lemmas about the songplays left join. -/

/-- The join predicate expressed on the originating event record: `toStage`
copies `song` and `length` unchanged. -/
def eventTrackMatch (r : LogRecord) (s : SongRow) : Bool :=
  sqlEqB r.song s.title && sqlEqB r.length s.duration

/-- The stage row's join predicate coincides with the event-level one. -/
theorem trackMatch_toStage (cal : ℚ → TimeFields) (r : LogRecord)
    (s : SongRow) : trackMatch (toStage cal r) s = eventTrackMatch r s :=
  rfl

/-- A left join never drops its left row: each stage row yields at least
one Fact row. -/
theorem factRowsOf_ne_nil (songs : List SongRow) (e : StageRow) :
    factRowsOf songs e ≠ [] := by
  unfold factRowsOf
  by_cases hms : (songs.filter fun s => trackMatch e s).isEmpty
  · simp [hms]
  · simp only [hms, if_neg, Bool.false_eq_true, not_false_iff]
    intro hmap
    rw [List.map_eq_nil_iff] at hmap
    rw [hmap] at hms
    simp at hms

/-- Every Fact row produced from a stage row keeps that row's non-join
columns. -/
theorem factRowsOf_fields (songs : List SongRow) (e : StageRow) :
    ∀ row ∈ factRowsOf songs e,
      row.start_time = e.start_time ∧ row.user_id = e.userId ∧
      row.level = e.level ∧ row.session_id = e.sessionId ∧
      row.location = e.location ∧ row.user_agent = e.userAgent ∧
      row.year = e.year ∧ row.month = e.month := by
  intro row hrow
  unfold factRowsOf at hrow
  by_cases hms : (songs.filter fun s => trackMatch e s).isEmpty
  · simp only [hms, if_pos, List.mem_singleton] at hrow
    subst hrow
    exact ⟨rfl, rfl, rfl, rfl, rfl, rfl, rfl, rfl⟩
  · simp only [hms, Bool.false_eq_true, if_neg, not_false_iff,
      List.mem_map] at hrow
    obtain ⟨s, _, hrow⟩ := hrow
    subst hrow
    exact ⟨rfl, rfl, rfl, rfl, rfl, rfl, rfl, rfl⟩

/-- The song/artist foreign keys of a Fact row: populated from a matching
Track row when one exists, both null when none does. -/
theorem factRowsOf_keys (songs : List SongRow) (e : StageRow) :
    ∀ row ∈ factRowsOf songs e,
      (∃ s ∈ songs, trackMatch e s = true ∧
        row.song_id = s.song_id ∧ row.artist_id = s.artist_id) ∨
      ((∀ s ∈ songs, trackMatch e s = false) ∧
        row.song_id = none ∧ row.artist_id = none) := by
  intro row hrow
  unfold factRowsOf at hrow
  by_cases hms : (songs.filter fun s => trackMatch e s).isEmpty
  · refine Or.inr ⟨?_, ?_, ?_⟩
    · intro s hs
      rw [List.isEmpty_iff] at hms
      by_contra hne
      have : s ∈ songs.filter fun s => trackMatch e s :=
        List.mem_filter.mpr ⟨hs, by simpa using hne⟩
      rw [hms] at this
      simp at this
    · simp only [hms, if_pos, List.mem_singleton] at hrow
      subst hrow; rfl
    · simp only [hms, if_pos, List.mem_singleton] at hrow
      subst hrow; rfl
  · simp only [hms, Bool.false_eq_true, if_neg, not_false_iff,
      List.mem_map] at hrow
    obtain ⟨s, hs, hrow⟩ := hrow
    rcases List.mem_filter.mp hs with ⟨hs1, hs2⟩
    subst hrow
    exact Or.inl ⟨s, hs1, hs2, rfl, rfl⟩

/-- Membership in the songplays table unfolded to provenance: each row
comes from some filtered event. -/
theorem mem_songplays_iff (df : List LogRecord) (songs : List SongRow)
    (cal : ℚ → TimeFields) (row : FactRow) :
    row ∈ songplays_table df songs cal ↔
      ∃ r ∈ df, row ∈ factRowsOf songs (toStage cal r) := by
  unfold songplays_table
  simp only [List.mem_flatten, List.mem_map]
  constructor
  · rintro ⟨l, ⟨e, ⟨r, hr, he⟩, hl⟩, hrow⟩
    subst he; subst hl
    exact ⟨r, hr, hrow⟩
  · rintro ⟨r, hr, hrow⟩
    exact ⟨factRowsOf songs (toStage cal r), ⟨toStage cal r, ⟨r, hr, rfl⟩,
      rfl⟩, hrow⟩

/-- Each filtered event contributes at least one songplays row, keeping
its `userId` and derived `start_time`. -/
theorem songplays_row_of_event (df : List LogRecord) (songs : List SongRow)
    (cal : ℚ → TimeFields) (r : LogRecord) (hr : r ∈ df) :
    ∃ row ∈ songplays_table df songs cal,
      row.user_id = r.userId ∧ row.start_time = get_timestamp r.ts := by
  obtain ⟨row, hrow⟩ :=
    List.exists_mem_of_ne_nil _ (factRowsOf_ne_nil songs (toStage cal r))
  have hf := factRowsOf_fields songs (toStage cal r) row hrow
  refine ⟨row, (mem_songplays_iff df songs cal row).mpr ⟨r, hr, hrow⟩, ?_, ?_⟩
  · exact hf.2.1
  · exact hf.1

/-- The derived timestamp as an exact integer fraction, convenient for
kernel evaluation. -/
theorem get_timestamp_eq_divInt (ts : Int) :
    get_timestamp ts = Rat.divInt ts 1000 := by
  rw [get_timestamp, Rat.divInt_eq_div]
  norm_num

/-- C1: given exactly the one catalog record and the one play event of the
end-to-end scenario, running the catalog transform then the event
transform produces a songplays (Fact) table that is exactly one row, with
`song_id = "S1"`, `artist_id = "A1"` and `user_id = "U1"` (for any
engine calendar extractors). -/
theorem c1_end_to_end (cal : ℚ → TimeFields) :
    songplays_pipeline [songRec1] [logRec1] cal =
      [⟨get_timestamp 1000000000000, some "U1", some "free", some "S1",
        some "A1", some 1, some "NYC", some "UA",
        (cal (get_timestamp 1000000000000)).year,
        (cal (get_timestamp 1000000000000)).month⟩] :=
  rfl

/-- C5 counterexample: the derived timestamp is not truncated to whole
seconds — `ts = 1999` and `ts = 1000` (the claim's example of two
millisecond values in the same second) map to different `start_time`s, and
`ts = 1999` has a non-zero sub-second component. -/
theorem c5_counterexample :
    get_timestamp 1999 ≠ get_timestamp 1000 ∧
    ¬ ∃ n : ℤ, get_timestamp 1999 = (n : ℚ) := by
  constructor
  · rw [get_timestamp_eq_divInt, get_timestamp_eq_divInt]
    decide
  · rintro ⟨n, hn⟩
    rw [get_timestamp] at hn
    have h1 : ((1999 : Int) : ℚ) = (n : ℚ) * 1000 :=
      (div_eq_iff (by norm_num)).mp hn
    have h2 : (1999 : ℤ) = n * 1000 := by exact_mod_cast h1
    omega

/-- C5 amended: the `start_time` derived by
`datetime.fromtimestamp(ts / 1000.0)` is the exact value `ts / 1000`
seconds — the millisecond fraction is preserved, not truncated: the
derivation is injective (distinct `ts` values in the same second map to
distinct `start_time`s), and the sub-second component is zero exactly when
`ts` is a whole number of seconds. -/
theorem c5_timestamp_exact (ts₁ ts₂ : Int) :
    (get_timestamp ts₁ = get_timestamp ts₂ ↔ ts₁ = ts₂) ∧
    ((∃ n : ℤ, get_timestamp ts₁ = (n : ℚ)) ↔ (1000 : ℤ) ∣ ts₁) ∧
    get_timestamp ts₁ * 1000 = (ts₁ : ℚ) := by
  refine ⟨⟨fun h => ?_, fun h => by rw [h]⟩, ⟨?_, ?_⟩, ?_⟩
  · rw [get_timestamp, get_timestamp] at h
    field_simp at h
    exact h
  · rintro ⟨n, hn⟩
    rw [get_timestamp] at hn
    have h1 : (ts₁ : ℚ) = (n : ℚ) * 1000 := (div_eq_iff (by norm_num)).mp hn
    have h2 : ts₁ = n * 1000 := by exact_mod_cast h1
    exact ⟨n, by omega⟩
  · rintro ⟨k, hk⟩
    refine ⟨k, ?_⟩
    rw [get_timestamp, hk]
    push_cast
    exact mul_div_cancel_left₀ _ (by norm_num)
  · rw [get_timestamp]
    field_simp

/-- C6 counterexample: the two read-path patterns do not have the same
directory-glob depth. -/
theorem c6_counterexample :
    ¬ (wildcardDirDepth (song_data_path "") =
        wildcardDirDepth (log_data_path "")) := by
  decide

/-- C6 amended: the catalog read path addresses files under 3 levels of
wildcard directories (`song_data/*/*/*/*.json`), but the event-log read
path addresses files under only 2 (`log_data/*/*/*.json`). -/
theorem c6_glob_depths :
    wildcardDirDepth (song_data_path "") = 3 ∧
    wildcardDirDepth (log_data_path "") = 2 := by
  decide

/-- C7 counterexample: the artists table's column names are not
`{id, name, location, latitude, longitude}` — the key column was never
renamed. -/
theorem c7_counterexample :
    ¬ (artists_table_columns =
        ["id", "name", "location", "latitude", "longitude"]) := by
  decide

/-- C7 amended: the Artist table is the exact-duplicate-free projection of
the five owner fields, with the four `artist_`-prefixed non-key fields
renamed by stripping the prefix; the key column keeps its source name
`artist_id` (it is never renamed to `id`). -/
theorem c7_artists_table :
    artists_table_columns =
      ["artist_id", "name", "location", "latitude", "longitude"] ∧
    ∀ df : List SongRecord, (artists_table df).Nodup := by
  exact ⟨by decide, fun df => List.nodup_dedup _⟩

/-- C8: the Track table is exact-duplicate free, and the intermediate
`songs` view registered for the event transform is exactly the
deduplicated projection written to storage — not the raw catalog input,
from which it differs as soon as the input has duplicate records. -/
theorem c8_track_view_refinement :
    (∀ df : List SongRecord, (songs_table df).Nodup ∧
      songs_view df = songs_table df ∧
      songs_view df = track_view_spec df) ∧
    songs_view [songRecA, songRecA] ≠ songsRawProjection [songRecA, songRecA] := by
  refine ⟨fun df => ⟨List.nodup_dedup _, rfl, rfl⟩, ?_⟩
  decide

/-- Row count of the left join for one stage row: one row when no Track
row matches, one per match otherwise. -/
theorem factRowsOf_length (songs : List SongRow) (e : StageRow) :
    (factRowsOf songs e).length =
      max 1 (songs.countP fun s => trackMatch e s) := by
  unfold factRowsOf
  rw [List.countP_eq_length_filter]
  by_cases hms : (songs.filter fun s => trackMatch e s) = []
  · rw [if_pos (by simp [hms]), hms]
    simp
  · rw [if_neg (by simpa [List.isEmpty_iff] using hms), List.length_map]
    have hpos : 1 ≤ (songs.filter fun s => trackMatch e s).length :=
      List.length_pos.mpr hms
    omega

/-- C2: after filtering to `page='NextSong'` events, the User table has
exactly one row per distinct `userId` value (and none for any other
value), and each row's profile fields equal those of an event with the
maximum `ts` for that user — any admissible rank-1 choice (tie-break) of
the window yields such a row. -/
theorem c2_users_most_recent (logs : List LogRecord)
    (pick : Option String → LogRecord)
    (hpick : IsMaxTsChoice (filterNextSong logs) pick) :
    (∀ u : Option String,
      (users_pipeline logs pick).countP (fun row => row.user_id = u) =
        if u ∈ userKeys (filterNextSong logs) then 1 else 0) ∧
    ∀ row ∈ users_pipeline logs pick,
      ∃ r ∈ filterNextSong logs, r.userId = row.user_id ∧
        (∀ q ∈ filterNextSong logs, q.userId = row.user_id → q.ts ≤ r.ts) ∧
        row = projUser r :=
  ⟨fun u => users_table_countP _ pick hpick u, users_table_rows _ pick hpick⟩

/-- C2 witness: on the one-event log, the identity choice is admissible
and the User table has exactly one row for user `"U1"`. -/
theorem c2_users_most_recent_witness :
    IsMaxTsChoice (filterNextSong [logRec1]) (fun _ => logRec1) ∧
    (users_pipeline [logRec1] (fun _ => logRec1)).countP
      (fun row => row.user_id = some "U1") = 1 := by
  have hpick : IsMaxTsChoice (filterNextSong [logRec1]) (fun _ => logRec1) := by
    unfold IsMaxTsChoice
    decide
  refine ⟨hpick, ?_⟩
  have h := (c2_users_most_recent [logRec1] (fun _ => logRec1) hpick).1
    (some "U1")
  rw [h]
  decide

/-- C3: every Fact row descends from a filtered event; its foreign keys
are taken from a Track row matching the event's (song, length) when one
exists in the deduplicated Track table, and are both null when none does —
and a join miss never drops the event: each filtered event still yields at
least one Fact row. -/
theorem c3_join_miss_null (logs : List LogRecord)
    (songRecs : List SongRecord) (cal : ℚ → TimeFields) :
    (∀ row ∈ songplays_pipeline songRecs logs cal,
      ∃ r ∈ filterNextSong logs,
        row.user_id = r.userId ∧ row.start_time = get_timestamp r.ts ∧
        ((∃ s ∈ songs_table songRecs, eventTrackMatch r s = true ∧
            row.song_id = s.song_id ∧ row.artist_id = s.artist_id) ∨
         ((∀ s ∈ songs_table songRecs, eventTrackMatch r s = false) ∧
          row.song_id = none ∧ row.artist_id = none))) ∧
    (∀ r ∈ filterNextSong logs,
      ∃ row ∈ songplays_pipeline songRecs logs cal,
        row.user_id = r.userId ∧ row.start_time = get_timestamp r.ts) := by
  constructor
  · intro row hrow
    obtain ⟨r, hr, hrow⟩ := (mem_songplays_iff _ _ _ _).mp hrow
    have hf := factRowsOf_fields _ _ row hrow
    have hk := factRowsOf_keys _ _ row hrow
    refine ⟨r, hr, hf.2.1, hf.1, ?_⟩
    rcases hk with ⟨s, hs, hmatch, h1, h2⟩ | ⟨hnone, h1, h2⟩
    · exact Or.inl ⟨s, hs, hmatch, h1, h2⟩
    · exact Or.inr ⟨hnone, h1, h2⟩
  · intro r hr
    exact songplays_row_of_event (filterNextSong logs) (songs_view songRecs)
      cal r hr

/-- C3 witness: the end-to-end scenario's event yields a Fact row with its
`userId` and derived `start_time`. -/
theorem c3_join_miss_null_witness :
    ∃ row ∈ songplays_pipeline [songRec1] [logRec1] calZero,
      row.user_id = logRec1.userId ∧
      row.start_time = get_timestamp logRec1.ts :=
  (c3_join_miss_null [logRec1] [songRec1] calZero).2 logRec1 (by decide)

/-- C4 counterexample: with two catalog records sharing (title, duration)
but differing in `song_id`, one qualifying event is multiplied into two
Fact rows by the left join. -/
theorem c4_counterexample :
    (filterNextSong [logRecT]).length = 1 ∧
    (songplays_pipeline [songRecA, songRecB] [logRecT] calZero).length = 2 := by
  constructor
  · rfl
  · rfl

/-- C4 amended: the Fact table has at least one row per qualifying event —
exactly one when at most one deduplicated Track row matches the event's
(song, length) — but in general one row per matching Track row, so several
Track rows sharing a (title, duration) pair multiply the event. -/
theorem c4_fact_multiplicity (logs : List LogRecord)
    (songRecs : List SongRecord) (cal : ℚ → TimeFields) :
    (songplays_pipeline songRecs logs cal).length =
      ((filterNextSong logs).map fun r =>
        max 1 ((songs_table songRecs).countP fun s =>
          eventTrackMatch r s)).sum := by
  rw [songplays_pipeline, songplays_table, List.length_flatten,
    List.map_map, List.map_map]
  congr 1
  apply List.map_congr_left
  intro r _
  simp only [Function.comp_apply]
  rw [factRowsOf_length]
  rfl

/-- C9: an event whose `page` is not exactly `'NextSong'` contributes no
row to the Time table or the Fact table: removing it from anywhere in the
event log leaves both tables unchanged (and reading it is not an error —
the transforms are total). -/
theorem c9_non_nextsong_invisible (logs₁ logs₂ : List LogRecord)
    (e : LogRecord) (songRecs : List SongRecord) (cal : ℚ → TimeFields)
    (he : e.page ≠ some "NextSong") :
    time_pipeline (logs₁ ++ e :: logs₂) cal =
      time_pipeline (logs₁ ++ logs₂) cal ∧
    songplays_pipeline songRecs (logs₁ ++ e :: logs₂) cal =
      songplays_pipeline songRecs (logs₁ ++ logs₂) cal := by
  have hfilter : filterNextSong (logs₁ ++ e :: logs₂) =
      filterNextSong (logs₁ ++ logs₂) := by
    unfold filterNextSong
    rw [List.filter_append, List.filter_append, List.filter_cons]
    simp [he]
  exact ⟨by rw [time_pipeline, hfilter, time_pipeline],
    by rw [songplays_pipeline, hfilter, songplays_pipeline]⟩

/-- C9 witness: a `page='Home'` event appears in neither table. -/
theorem c9_non_nextsong_invisible_witness :
    logRecHome.page ≠ some "NextSong" ∧
    time_pipeline [logRecHome] calZero = time_pipeline [] calZero ∧
    songplays_pipeline [songRec1] [logRecHome] calZero =
      songplays_pipeline [songRec1] [] calZero := by
  have he : logRecHome.page ≠ some "NextSong" := by decide
  have h := c9_non_nextsong_invisible [] [] logRecHome [songRec1] calZero he
  exact ⟨he, by simpa using h.1, by simpa using h.2⟩

/-- C10: `page='NextSong'` events with a null `userId` are kept: the
window groups them into one partition, so the User table has exactly one
row with null `user_id`, taken from a maximal-timestamp null-user event,
and each such event still yields a Fact row with null `user_id`. -/
theorem c10_null_userid (logs : List LogRecord)
    (songRecs : List SongRecord) (cal : ℚ → TimeFields)
    (pick : Option String → LogRecord)
    (hpick : IsMaxTsChoice (filterNextSong logs) pick)
    (hnull : none ∈ userKeys (filterNextSong logs)) :
    (users_pipeline logs pick).countP (fun row => row.user_id = none) = 1 ∧
    (∃ r ∈ filterNextSong logs, r.userId = none ∧
      (∀ q ∈ filterNextSong logs, q.userId = none → q.ts ≤ r.ts) ∧
      projUser r ∈ users_pipeline logs pick) ∧
    (∀ r ∈ filterNextSong logs, r.userId = none →
      ∃ row ∈ songplays_pipeline songRecs logs cal,
        row.user_id = none ∧ row.start_time = get_timestamp r.ts) := by
  refine ⟨?_, ?_, ?_⟩
  · rw [users_pipeline, users_table_countP _ pick hpick none, if_pos hnull]
  · refine ⟨pick none, (pick_userId_eq _ pick hpick none hnull).1,
      (pick_userId_eq _ pick hpick none hnull).2, ?_, ?_⟩
    · intro q hq hqnull
      exact (hpick none hnull).2 q (List.mem_filter.mpr ⟨hq, by simp [hqnull]⟩)
    · rw [users_pipeline, users_table_eq_map _ pick hpick]
      exact List.mem_map.mpr ⟨none, hnull, rfl⟩
  · intro r hr hrnull
    obtain ⟨row, hrow, h1, h2⟩ := songplays_row_of_event (filterNextSong logs)
      (songs_view songRecs) cal r hr
    exact ⟨row, hrow, by rw [h1, hrnull], h2⟩

/-- C10 witness: on a log holding one null-user play event, the User table
has exactly one row with null `user_id`. -/
theorem c10_null_userid_witness :
    IsMaxTsChoice (filterNextSong [logRecNull]) (fun _ => logRecNull) ∧
    (users_pipeline [logRecNull] (fun _ => logRecNull)).countP
      (fun row => row.user_id = none) = 1 := by
  have hpick : IsMaxTsChoice (filterNextSong [logRecNull])
      (fun _ => logRecNull) := by
    unfold IsMaxTsChoice
    decide
  exact ⟨hpick, (c10_null_userid [logRecNull] [] calZero
    (fun _ => logRecNull) hpick (by decide)).1⟩

end Etl
